import Mathlib

/-!
Verification of the sipsimple configuration framework
(src/sipsimple/configuration/__init__.py).

The development shallowly embeds the settings machinery: the `Setting`
descriptor with its per-owner value/old-value/dirty dictionaries, the
recursive `SettingsState` tree protocol (get_modified, clear_dirty,
__getstate__, __setstate__), and the `SettingsObject` save/delete
lifecycle.  Python dictionaries keyed by `id(obj)` hold at most one entry
per owner; the embedding models the slice of those dictionaries belonging
to one fixed owner, which is faithful because every dictionary operation
in the source touches only the `id(obj)` key of the owner at hand.
-/

/-- Errors raised by the configuration core.  `notNillable` stands for
`ValueError("Setting attribute is not nillable")` raised by
`Setting.__set__`; `typeMismatch` stands for
`TypeError("illegal type for SettingsGroup attribute")` raised by
`SettingsGroupMeta.__set__` (and for the failure of coercing a non-value
into a Setting). -/
inductive ConfErr where
  | notNillable
  | typeMismatch
deriving DecidableEq, Repr

/-- Model of the `Setting` descriptor restricted to one owner.

`typeCheck v` models `isinstance(value, self.type)` and `typeConv v`
models the coercion `self.type(value)`; the Python attribute `self.type`
plays both roles.  `default` is `self.default` (`none` = Python `None`).
`objects`/`oldobjects` model the presence and value of the
`self.objects[id(obj)]` / `self.oldobjects[id(obj)]` entries: the outer
`Option` is dictionary-key presence, the inner `Option` is the stored
value with `none` = Python `None`.  `dirty` models
`self.dirty.get(id(obj), False)`. -/
structure Setting (V : Type) where
  typeCheck : V → Bool
  typeConv : V → V
  default : Option V
  nillable : Bool
  objects : Option (Option V)
  oldobjects : Option (Option V)
  dirty : Bool

/-- Values assignable through `Setting.__set__`: Python `None`, the
`DefaultValue` reset-marker class, or an ordinary value. -/
inductive SetVal (V : Type) where
  | nullValue
  | defaultValue
  | value (v : V)

/-- Model of `Setting.__get__`: `self.objects.get(id(obj), self.default)`. -/
def Setting.get {V : Type} (s : Setting V) : Option V :=
  s.objects.getD s.default

/-- Model of `Setting.__set__`.  Returns the raised error (if any)
together with the state after the call; a raise happens before any
dictionary write, so on error the state is returned unchanged.  The
assignment `self.dirty[id(obj)] = True` runs after the branch on the
value, on every non-raising path. -/
def Setting.set {V : Type} (s : Setting V) : SetVal V → Option ConfErr × Setting V
  | SetVal.nullValue =>
      if s.nillable then
        (none, { s with objects := some none, dirty := true })
      else
        (some ConfErr.notNillable, s)
  | SetVal.defaultValue =>
      if s.default.isNone && !s.nillable then
        (some ConfErr.notNillable, s)
      else
        (none, { s with objects := none, dirty := true })
  | SetVal.value v =>
      (none, { s with objects := some (some (if s.typeCheck v then v else s.typeConv v)),
                      dirty := true })

/-- Model of `Setting.isset`: `id(obj) in self.objects`. -/
def Setting.isset {V : Type} (s : Setting V) : Bool :=
  s.objects.isSome

/-- Model of `Setting.isdirty`: `self.dirty.get(id(obj), False)`. -/
def Setting.isdirty {V : Type} (s : Setting V) : Bool :=
  s.dirty

/-- Model of `Setting.clear_dirty`: pops the dirty flag and copies
`self.objects[id(obj)]` into `self.oldobjects[id(obj)]`; the `KeyError`
branch leaves `oldobjects` untouched when no explicit value is stored. -/
def Setting.clear_dirty {V : Type} (s : Setting V) : Setting V :=
  { s with dirty := false,
           oldobjects := match s.objects with
                         | some v => some v
                         | none => s.oldobjects }

/-- Model of `Setting.get_old`: `self.oldobjects.get(id(obj), self.default)`. -/
def Setting.get_old {V : Type} (s : Setting V) : Option V :=
  s.oldobjects.getD s.default

/-- Model of `Setting.undo`: pops the dirty flag and assigns
`self.objects[id(obj)] = self.oldobjects.setdefault(id(obj), self.default)`. -/
def Setting.undo {V : Type} (s : Setting V) : Setting V :=
  { s with dirty := false,
           oldobjects := some (s.oldobjects.getD s.default),
           objects := some (s.oldobjects.getD s.default) }

/-- Model of `Setting.remove`: pops the `objects` and `dirty` entries for
the owner (`oldobjects` is deliberately left alone by the source). -/
def Setting.remove {V : Type} (s : Setting V) : Setting V :=
  { s with objects := none, dirty := false }

/-- Example setting used to instantiate universally quantified theorems:
an integer-typed, non-nillable setting with default `0` and no per-owner
state yet. -/
def natSetting : Setting Nat :=
  { typeCheck := fun _ => true
    typeConv := fun v => v
    default := some 0
    nillable := false
    objects := none
    oldobjects := none
    dirty := false }

/-- Example nillable setting with a stored explicit value `5`. -/
def natSettingStored : Setting Nat :=
  { natSetting with nillable := true, objects := some (some 5) }

/-- Record reported for a dirty setting by `get_modified`
(`ModifiedValue(old=..., new=...)` in the source). -/
structure ModifiedValue (V : Type) where
  old : Option V
  new : Option V
deriving DecidableEq, Repr

/-- One instance of a settings tree: a `SettingsState` (a `SettingsObject`
root or a `SettingsGroup` node) is its ordered list of schema fields,
each a `Setting` (with the per-owner state of this instance inlined) or a
nested group (with its unique lazily-created child instance inlined —
exactly one child exists per owner, so inlining it is faithful).  The
list order models the deterministic order in which `dir(self.__class__)`
yields the field names. -/
inductive SettingsState (V : Type) : Type where
  | nil : SettingsState V
  | consSetting (name : String) (s : Setting V) (rest : SettingsState V) : SettingsState V
  | consGroup (name : String) (child : SettingsState V) (rest : SettingsState V) : SettingsState V

/-- Path-joining used by `get_modified`:
`name + sep + k if k else name` with `sep` the dot character. -/
def dottedJoin (name k : String) : String :=
  if k = "" then name else name ++ "." ++ k

/-- Model of `SettingsState.get_modified`: collects
`name -> ModifiedValue(old=attribute.get_old(self), new=getattr(self, name))`
for every dirty Setting, and recurses through group fields joining the
keys with `dottedJoin`.  The Python result is a dict with distinct keys;
the association list keeps the entries in field order. -/
def SettingsState.get_modified {V : Type} : SettingsState V → List (String × ModifiedValue V)
  | .nil => []
  | .consSetting n s r =>
      (if s.isdirty then [(n, ⟨s.get_old, s.get⟩)] else []) ++ r.get_modified
  | .consGroup n g r =>
      (g.get_modified.map (fun p => (dottedJoin n p.1, p.2))) ++ r.get_modified

/-- Model of `SettingsState.clear_dirty`: for every Setting field that is
dirty, call `Setting.clear_dirty` on it; recurse into group fields. -/
def SettingsState.clear_dirty {V : Type} : SettingsState V → SettingsState V
  | .nil => .nil
  | .consSetting n s r =>
      .consSetting n (if s.isdirty then s.clear_dirty else s) r.clear_dirty
  | .consGroup n g r => .consGroup n g.clear_dirty r.clear_dirty

/-- Pickled shape of a `SettingsState`, as produced by `__getstate__`: a
dictionary (modeled as an ordered association list with distinct keys)
mapping a field name either to the value of an explicitly-set Setting
(`consVal`, inner `none` = Python `None`) or to the recursively pickled
state of a nested group (`consGroup`). -/
inductive Snap (V : Type) : Type where
  | nil : Snap V
  | consVal (name : String) (v : Option V) (rest : Snap V) : Snap V
  | consGroup (name : String) (sub : Snap V) (rest : Snap V) : Snap V

/-- Empty-marker rule at the end of `__getstate__`:
`if not state: state[dummyKey] = None` with `dummyKey` the reserved
marker name `__dummy__`. -/
def dummyWrap {V : Type} : Snap V → Snap V
  | .nil => .consVal "__dummy__" none .nil
  | items => items

/-- Field loop of `SettingsState.__getstate__`: group fields are always
included (as the recursively pickled child, with the own
empty-marker rule of the child applied, since pickling the stored child object invokes
its `__getstate__`); Setting fields are included only when `isset`. -/
def SettingsState.getstateItems {V : Type} : SettingsState V → Snap V
  | .nil => .nil
  | .consSetting n s r =>
      if s.isset then .consVal n s.get r.getstateItems else r.getstateItems
  | .consGroup n g r =>
      .consGroup n (dummyWrap g.getstateItems) r.getstateItems

/-- Model of `SettingsState.__getstate__`: the field loop followed by
the empty-marker rule. -/
def SettingsState.getstate {V : Type} (t : SettingsState V) : Snap V :=
  dummyWrap t.getstateItems

/-- Conversion of a pickled Setting value back into the argument of
`Setting.__set__` performed by `setattr` in `__setstate__` (a stored
value is either Python `None` or an ordinary value; the reset marker is
never stored by `__getstate__`). -/
def toSetVal {V : Type} : Option V → SetVal V
  | none => SetVal.nullValue
  | some v => SetVal.value v

/-- Effect of `setattr(self, n, value)` for a plain (non-group) pickled
value: the first schema field named `n` receives the assignment.  A
Setting field runs `Setting.__set__` followed by the immediate
`attribute.clear_dirty(self)` of `__setstate__` (executed only when the
assignment did not raise); a group field named `n` rejects the non-group
value with `TypeError` in `SettingsGroupMeta.__set__`.  A name naming no
schema field becomes a plain instance attribute, invisible to the
settings machinery. -/
def SettingsState.applyValEntry {V : Type} :
    SettingsState V → String → Option V → Option ConfErr × SettingsState V
  | .nil, _, _ => (none, .nil)
  | .consSetting m s r, n, v =>
      if m = n then
        match s.set (toSetVal v) with
        | (some e, s2) => (some e, .consSetting m s2 r)
        | (none, s2) => (none, .consSetting m s2.clear_dirty r)
      else
        let p := r.applyValEntry n v
        (p.1, .consSetting m s p.2)
  | .consGroup m g r, n, v =>
      if m = n then (some ConfErr.typeMismatch, .consGroup m g r)
      else
        let p := r.applyValEntry n v
        (p.1, .consGroup m g p.2)

/-- Kind and child of the first schema field named `n`:
`some (some g)` = a group field with child `g`, `some none` = a Setting
field, `none` = no schema field of that name. -/
def SettingsState.lookupGroup {V : Type} :
    SettingsState V → String → Option (Option (SettingsState V))
  | .nil, _ => none
  | .consSetting m _ r, n => if m = n then some none else r.lookupGroup n
  | .consGroup m g r, n => if m = n then some (some g) else r.lookupGroup n

/-- Replace the child of the first group field named `n` (the effect of
`SettingsGroupMeta.__set__` storing the assigned instance). -/
def SettingsState.replaceGroup {V : Type} :
    SettingsState V → String → SettingsState V → SettingsState V
  | .nil, _, _ => .nil
  | .consSetting m s r, n, g2 => .consSetting m s (r.replaceGroup n g2)
  | .consGroup m g r, n, g2 =>
      if m = n then .consGroup m g2 r else .consGroup m g (r.replaceGroup n g2)

/-- A brand-new per-owner state for a Setting: no `objects`, no
`oldobjects` entry, not dirty (what a freshly created owner instance sees). -/
def Setting.fresh {V : Type} (s : Setting V) : Setting V :=
  { s with objects := none, oldobjects := none, dirty := false }

/-- A freshly constructed instance of the same schema: every Setting
field unset and clean, every group child fresh, as seen by an instance
that no descriptor dictionary has entries for yet. -/
def SettingsState.fresh {V : Type} : SettingsState V → SettingsState V
  | .nil => .nil
  | .consSetting n s r => .consSetting n s.fresh r.fresh
  | .consGroup n g r => .consGroup n g.fresh r.fresh

/-- Model of `SettingsState.__setstate__` applied to instance `t`:
`state.pop` removes the reserved `__dummy__` key before the loop
(with the distinct keys of the dictionary this equals skipping that key during
iteration), then every remaining entry is assigned via `setattr` — a
pickled group entry first rebuilds the child by unpickling (a fresh
instance of the child schema restored from the sub-state) and then
assigns it (its `isinstance` check succeeds).  The first raised error
aborts the loop and propagates, leaving earlier assignments in place. -/
def SettingsState.setstate {V : Type} :
    SettingsState V → Snap V → Option ConfErr × SettingsState V
  | t, .nil => (none, t)
  | t, .consVal n v rest =>
      if n = "__dummy__" then t.setstate rest
      else
        match t.applyValEntry n v with
        | (some e, t2) => (some e, t2)
        | (none, t2) => t2.setstate rest
  | t, .consGroup n sub rest =>
      if n = "__dummy__" then t.setstate rest
      else
        match t.lookupGroup n with
        | some (some g) =>
            match SettingsState.setstate g.fresh sub with
            | (some e, _) => (some e, t)
            | (none, g2) => (t.replaceGroup n g2).setstate rest
        | some none => (some ConfErr.typeMismatch, t)
        | none => t.setstate rest

/-- Names of the schema fields of a node, in order. -/
def SettingsState.names {V : Type} : SettingsState V → List String
  | .nil => []
  | .consSetting n _ r => n :: r.names
  | .consGroup n _ r => n :: r.names

/-- Boolean membership of a name in a name list. -/
def nameIn (n : String) : List String → Bool
  | [] => false
  | m :: r => (m == n) || nameIn n r

/-- Per-setting state invariant maintained by `Setting.__set__`: a stored
null requires `nillable`, and a stored ordinary value is an instance of
the declared type (Python guarantees `isinstance(self.type(v), self.type)`). -/
def Setting.wfState {V : Type} (s : Setting V) : Bool :=
  match s.objects with
  | none => true
  | some none => s.nillable
  | some (some v) => s.typeCheck v

/-- Well-formedness of a tree instance: field names within a node are
distinct Python attribute names (so never the reserved `"__dummy__"`
key), the stored state of every Setting satisfies `Setting.wfState`, and
every nested group is well-formed.  Every tree reachable through the
operations of the source satisfies this. -/
def SettingsState.wf {V : Type} : SettingsState V → Bool
  | .nil => true
  | .consSetting n s r =>
      (n != "__dummy__") && s.wfState && !(nameIn n r.names) && r.wf
  | .consGroup n g r =>
      (n != "__dummy__") && !(nameIn n r.names) && g.wf && r.wf

/-- Observable per-field view of a tree: for every Setting field,
its path through the group structure together with its `isset` and
`__get__` results. -/
def SettingsState.settingView {V : Type} :
    SettingsState V → List (List String × Bool × Option V)
  | .nil => []
  | .consSetting n s r => ([n], s.isset, s.get) :: r.settingView
  | .consGroup n g r =>
      (g.settingView.map (fun p => (n :: p.1, p.2))) ++ r.settingView

/-- Dirty Setting fields of a tree, with their paths. -/
def SettingsState.dirtySettings {V : Type} :
    SettingsState V → List (List String × Setting V)
  | .nil => []
  | .consSetting n s r =>
      (if s.isdirty then [([n], s)] else []) ++ r.dirtySettings
  | .consGroup n g r =>
      (g.dirtySettings.map (fun p => (n :: p.1, p.2))) ++ r.dirtySettings

/-- Dotted rendering of a field path, matching the key construction of
`get_modified`. -/
def joinPath (p : List String) : String :=
  p.foldr dottedJoin ""

/-- Expected per-setting state after a snapshot/restore round trip: the
explicit value is re-assigned and the immediate clear-dirty commits it,
so `oldobjects` ends up equal to `objects` and the dirty flag is clear;
an unset field stays fresh. -/
def Setting.restored {V : Type} (s : Setting V) : Setting V :=
  { s with oldobjects := s.objects, dirty := false }

/-- Expected tree after a snapshot/restore round trip. -/
def SettingsState.restored {V : Type} : SettingsState V → SettingsState V
  | .nil => .nil
  | .consSetting n s r => .consSetting n s.restored r.restored
  | .consGroup n g r => .consGroup n g.restored r.restored

/-- Concatenation of the field lists of two nodes (proof device for
reasoning about the restore loop as it moves past already-processed
fields). -/
def SettingsState.append {V : Type} : SettingsState V → SettingsState V → SettingsState V
  | .nil, u => u
  | .consSetting n s r, u => .consSetting n s (r.append u)
  | .consGroup n g r, u => .consGroup n g (r.append u)

/-- Notifications posted by `SettingsObject.save` through the
NotificationCenter: `CFGSettingsDidChange` (carrying the modified map)
and `CFGManagerSaveFailed` (carrying the modified map and the caught
exception, of an abstract type `E`). -/
inductive CFGNotification (V E : Type) where
  | settingsDidChange (modified : List (String × ModifiedValue V))
  | managerSaveFailed (modified : List (String × ModifiedValue V)) (err : E)
deriving DecidableEq

/-- Outcome of a `save()` call: the exception escaping to the caller (if
any), the notifications posted in order, and the tree afterwards. -/
structure SaveResult (V E : Type) where
  raised : Option E
  posted : List (CFGNotification V E)
  tree : SettingsState V

/-- Model of `SettingsObject.save`.  The persistence step
(`configuration.set` + `configuration.save`, executed only when
`__section__` is not None) is external I/O, modeled by the oracle
`persistOutcome`: `some e` means that step raises exception `e`.  The
`try/except Exception` converts the raise into a `CFGManagerSaveFailed`
notification; the `finally` block posts `CFGSettingsDidChange` and calls
the recursive `clear_dirty` on every path past the empty-check. -/
def SettingsObject.save {V E : Type} (tree : SettingsState V)
    (sectionName : Option String) (persistOutcome : Option E) : SaveResult V E :=
  let modified := tree.get_modified
  if modified.isEmpty then
    { raised := none, posted := [], tree := tree }
  else
    match sectionName, persistOutcome with
    | some _, some e =>
        { raised := none
          posted := [CFGNotification.managerSaveFailed modified e,
                     CFGNotification.settingsDidChange modified]
          tree := tree.clear_dirty }
    | _, _ =>
        { raised := none
          posted := [CFGNotification.settingsDidChange modified]
          tree := tree.clear_dirty }

/-- Calls made to the ConfigurationManager backend by `delete()`. -/
inductive BackendOp where
  | deleteEntry (sectionName : String) (name : String)
  | flush
deriving DecidableEq, Repr

/-- Outcome of a `delete()` call: whether the illegal-delete `TypeError`
was raised, the Singleton identity map afterwards, and the backend calls
made. -/
structure DeleteResult where
  raisedIllegal : Bool
  instances : List (String × Nat)
  backendOps : List BackendOp
deriving DecidableEq, Repr

/-- A Python string object: its text together with its object identity
(`ref` stands for the `id()` of the object).  Two equal strings built
separately are distinct objects with the same `val`. -/
structure PyStr where
  val : String
  ref : Nat
deriving DecidableEq, Repr

/-- Model of the Python `is` comparison between the instance id (always
a string object after `__new__`) and the class attribute `__id__` (a
string object or `None`): true exactly when both are the very same
object.  `None` is never the same object as a string. -/
def PyStr.isSameObject (a : PyStr) : Option PyStr → Bool
  | some c => a.ref == c.ref
  | none => false

/-- Model of `SettingsObject.delete`.  `selfId` is the string object
stored in `self.__id__` by `__new__`; `selfRef` is the Python object
identity of `self`; `instances` is the Singleton `_instances` registry
(id key to object reference); `classId` is the class attribute `__id__`.
The guard is the identity comparison
`self.__id__ is self.__class__.__id__` of the source, not value
equality.  `sectionExists` tells whether `configuration.delete` raises
`UnknownSectionError` (which the source swallows, skipping the flush). -/
def SettingsObject.delete (selfId : PyStr) (selfRef : Nat) (classId : Option PyStr)
    (instances : List (String × Nat)) (sectionName : Option String)
    (sectionExists : Bool) : DeleteResult :=
  if selfId.isSameObject classId then
    { raisedIllegal := true, instances := instances, backendOps := [] }
  else
    let matching := (instances.filter (fun p => p.2 == selfRef)).map Prod.fst
    let inst2 := match matching.head? with
      | none => instances
      | some k => instances.eraseP (fun p => p.1 == k)
    match sectionName with
    | none => { raisedIllegal := false, instances := inst2, backendOps := [] }
    | some sec =>
        if sectionExists then
          { raisedIllegal := false, instances := inst2
            backendOps := [BackendOp.deleteEntry sec selfId.val, BackendOp.flush] }
        else
          { raisedIllegal := false, instances := inst2
            backendOps := [BackendOp.deleteEntry sec selfId.val] }

/-- A node with no nested group fields. -/
def SettingsState.noGroups {V : Type} : SettingsState V → Bool
  | .nil => true
  | .consSetting _ _ r => r.noGroups
  | .consGroup _ _ _ => false

/-- A tree in which no Setting is explicitly set. -/
def SettingsState.noneSet {V : Type} : SettingsState V → Bool
  | .nil => true
  | .consSetting _ s r => !s.isset && r.noneSet
  | .consGroup _ g r => g.noneSet && r.noneSet

/-- Example dirty setting (explicit value `7`, dirty flag on). -/
def natSettingDirty : Setting Nat :=
  { natSetting with objects := some (some 7), dirty := true }

/-- Example tree with one dirty leaf two group levels deep. -/
def natTreeDeep : SettingsState Nat :=
  SettingsState.consGroup "audio"
    (SettingsState.consGroup "codec"
      (SettingsState.consSetting "rate" natSettingDirty SettingsState.nil)
      SettingsState.nil)
    SettingsState.nil

/-- Example flat tree with one dirty setting, used for the save witness. -/
def natTreeFlatDirty : SettingsState Nat :=
  SettingsState.consSetting "display" natSettingDirty SettingsState.nil

/-- Example flat tree with a single clean, unset setting. -/
def natTreeFlatClean : SettingsState Nat :=
  SettingsState.consSetting "display" natSetting SettingsState.nil

/-- Example mixed tree for the round-trip witness: an explicitly set
dirty setting, a group holding a nillable setting explicitly set to
null, and an unset setting. -/
def natTreeSample : SettingsState Nat :=
  SettingsState.consSetting "display"
    { natSetting with objects := some (some 3), dirty := true }
    (SettingsState.consGroup "audio"
      (SettingsState.consSetting "device"
        { natSetting with nillable := true, objects := some none }
        SettingsState.nil)
      (SettingsState.consSetting "port" natSetting SettingsState.nil))

theorem isdirty_clear_dirty {V : Type} (s : Setting V) :
    s.clear_dirty.isdirty = false := rfl

/-- C1: for every Setting `s` and valid value `v` (not null, not the
reset marker), `s.set(o, v)` succeeds, after it `s.get(o)` returns `v`
coerced to the declared type if needed, and `s.isDirty(o)` is true.  No
hypothesis excludes the case where `v` equals the value already stored,
so the statement covers it. -/
theorem claim_C1_set_then_get_and_dirty {V : Type} (s : Setting V) (v : V) :
    (s.set (SetVal.value v)).1 = none ∧
    (s.set (SetVal.value v)).2.get = some (if s.typeCheck v then v else s.typeConv v) ∧
    (s.set (SetVal.value v)).2.isdirty = true := by
  refine ⟨rfl, ?_, rfl⟩
  simp [Setting.set, Setting.get]

/-- C2 (counterexample): start from `natSetting` (default `0`), set the
value `1`, clear dirty, reset to default, clear dirty again.  The final
clear-dirty finds no explicit value stored, so it does not commit the
current value: `isDirty` is false as the claim states, but `priorValue`
is `1` while `get` is `0`, refuting "priorValue(o) equals s.get(o) in
every case, including when no explicit value is stored". -/
theorem claim_C2_counterexample :
    ((((natSetting.set (SetVal.value 1)).2.clear_dirty).set
        SetVal.defaultValue).2.clear_dirty).isdirty = false ∧
    ¬ ((((natSetting.set (SetVal.value 1)).2.clear_dirty).set
          SetVal.defaultValue).2.clear_dirty).get_old
      = ((((natSetting.set (SetVal.value 1)).2.clear_dirty).set
            SetVal.defaultValue).2.clear_dirty).get := by
  decide

/-- C2 (amended): immediately after `s.clearDirty(o)`, `s.isDirty(o)` is
false; the current value is committed into `priorCommitted` only when an
explicit value is stored for the owner (then `priorValue(o) = s.get(o)`);
when no explicit value is stored, `priorCommitted` is left unchanged. -/
theorem claim_C2_amended_clear_dirty {V : Type} (s : Setting V) :
    s.clear_dirty.isdirty = false ∧
    (s.objects.isSome = true → s.clear_dirty.get_old = s.get) ∧
    (s.objects = none → s.clear_dirty.oldobjects = s.oldobjects) := by
  refine ⟨rfl, ?_, ?_⟩
  · intro h
    cases hx : s.objects with
    | none => rw [hx] at h; simp at h
    | some v => simp [Setting.clear_dirty, Setting.get_old, Setting.get, hx]
  · intro h
    simp [Setting.clear_dirty, h]

/-- Witness for the amended C2 at the concrete setting `natSettingStored`. -/
theorem claim_C2_amended_clear_dirty_witness :
    natSettingStored.clear_dirty.isdirty = false ∧
    natSettingStored.clear_dirty.get_old = natSettingStored.get := by
  refine ⟨(claim_C2_amended_clear_dirty natSettingStored).1, ?_⟩
  exact (claim_C2_amended_clear_dirty natSettingStored).2.1 (by decide)

/-- C7: `s.set(o, RESET)` fails with `NotNillableError` exactly when the
default is null and the field is not nillable, and in that case the
per-owner state is unchanged; whenever it succeeds, `s.get(o)` returns
the default and `s.isSet(o)` is false. -/
theorem claim_C7_reset {V : Type} (s : Setting V) :
    ((s.set SetVal.defaultValue).1 = none →
        (s.set SetVal.defaultValue).2.get = s.default ∧
        (s.set SetVal.defaultValue).2.isset = false) ∧
    ((s.set SetVal.defaultValue).1 = some ConfErr.notNillable ↔
        s.default = none ∧ s.nillable = false) ∧
    ((s.set SetVal.defaultValue).1 ≠ none → (s.set SetVal.defaultValue).2 = s) := by
  by_cases h : s.default.isNone && !s.nillable
  · have hd : s.default = none := by
      cases hx : s.default with
      | none => rfl
      | some v => rw [hx] at h; simp at h
    have hn : s.nillable = false := by
      cases hx : s.nillable with
      | false => rfl
      | true => rw [hx] at h; simp at h
    refine ⟨?_, ?_, ?_⟩
    · intro he
      simp [Setting.set, h] at he
    · simp [Setting.set, h, hd, hn]
    · intro _
      simp [Setting.set, h]
  · refine ⟨?_, ?_, ?_⟩
    · intro _
      simp [Setting.set, h, Setting.get, Setting.isset]
    · constructor
      · intro he
        simp [Setting.set, h] at he
      · rintro ⟨hd, hn⟩
        exact absurd (by simp [hd, hn]) h
    · intro he
      exact absurd (by simp [Setting.set, h]) he

/-- Witness for C7 at `natSetting` (default `0`, hence reset succeeds)
and at the never-succeeding nil-default variant. -/
theorem claim_C7_reset_witness :
    (natSetting.set SetVal.defaultValue).1 = none ∧
    (natSetting.set SetVal.defaultValue).2.get = natSetting.default ∧
    (natSetting.set SetVal.defaultValue).2.isset = false := by
  refine ⟨by decide, ?_, ?_⟩
  · exact ((claim_C7_reset natSetting).1 (by decide)).1
  · exact ((claim_C7_reset natSetting).1 (by decide)).2

/-- C8: setting a non-nillable Setting to null fails with
`NotNillableError` and leaves the per-owner state unchanged: `get`,
`isSet`, `isDirty` and `priorValue` all return the same results as
before the failed call. -/
theorem claim_C8_null_not_nillable {V : Type} (s : Setting V)
    (h : s.nillable = false) :
    s.set SetVal.nullValue = (some ConfErr.notNillable, s) ∧
    (s.set SetVal.nullValue).2.get = s.get ∧
    (s.set SetVal.nullValue).2.isset = s.isset ∧
    (s.set SetVal.nullValue).2.isdirty = s.isdirty ∧
    (s.set SetVal.nullValue).2.get_old = s.get_old := by
  have hs : s.set SetVal.nullValue = (some ConfErr.notNillable, s) := by
    simp [Setting.set, h]
  exact ⟨hs, by rw [hs], by rw [hs], by rw [hs], by rw [hs]⟩

/-- Witness for C8 at the concrete non-nillable `natSetting`. -/
theorem claim_C8_null_not_nillable_witness :
    natSetting.set SetVal.nullValue = (some ConfErr.notNillable, natSetting) :=
  (claim_C8_null_not_nillable natSetting rfl).1

/-- C10: on an owner for which the Setting was never explicitly set and
never committed, `undo` stores the default as an explicit value:
afterwards `isSet` is true, `get` and `priorValue` both return the
default. -/
theorem claim_C10_undo_stores_default {V : Type} (s : Setting V)
    (h1 : s.objects = none) (h2 : s.oldobjects = none) :
    s.undo.isset = true ∧
    s.undo.objects = some s.default ∧
    s.undo.get = s.default ∧
    s.undo.get_old = s.default := by
  refine ⟨?_, ?_, ?_, ?_⟩ <;>
    simp [Setting.undo, Setting.isset, Setting.get, Setting.get_old, h1, h2]

/-- Witness for C10 at the fresh `natSetting`. -/
theorem claim_C10_undo_stores_default_witness :
    natSetting.undo.isset = true ∧
    natSetting.undo.objects = some natSetting.default ∧
    natSetting.undo.get = natSetting.default ∧
    natSetting.undo.get_old = natSetting.default :=
  claim_C10_undo_stores_default natSetting rfl rfl

/-- Recursively clearing dirty makes the modified collection empty. -/
theorem get_modified_clear_dirty {V : Type} (t : SettingsState V) :
    t.clear_dirty.get_modified = [] := by
  induction t with
  | nil => rfl
  | consSetting n s r ih =>
      cases hx : s.dirty <;>
        simp [SettingsState.clear_dirty, SettingsState.get_modified,
              Setting.isdirty, Setting.clear_dirty, hx, ih]
  | consGroup n g r ihg ihr =>
      simp [SettingsState.clear_dirty, SettingsState.get_modified, ihg, ihr]

/-- `get_modified` reports exactly the dirty settings, keyed by their
dotted paths. -/
theorem get_modified_eq_dirtySettings {V : Type} (t : SettingsState V) :
    t.get_modified = t.dirtySettings.map
      (fun p => (joinPath p.1, ⟨p.2.get_old, p.2.get⟩)) := by
  induction t with
  | nil => rfl
  | consSetting n s r ih =>
      cases hx : s.dirty <;>
        simp [SettingsState.get_modified, SettingsState.dirtySettings,
              Setting.isdirty, hx, ih, joinPath, dottedJoin]
  | consGroup n g r ihg ihr =>
      simp only [SettingsState.get_modified, SettingsState.dirtySettings, ihg, ihr,
        List.map_append, List.map_map]
      congr 1

theorem dotted_ne_empty (x y : String) : x ++ "." ++ y ≠ "" := by
  intro h
  have h2 := congrArg String.length h
  rw [String.length_append, String.length_append] at h2
  rw [(by decide : ("." : String).length = 1),
      (by decide : ("" : String).length = 0)] at h2
  omega

/-- C5: in a tree whose only dirty Setting `s` sits two group levels
deep (group `a`, inner group `b`, leaf `c`, all proper attribute names),
`collectModified` returns exactly one entry, keyed by the dotted path
through both levels and mapped to the old and new values; after the
recursive `clear_dirty` on the root, `collectModified` is empty. -/
theorem claim_C5_one_dirty_leaf_two_levels {V : Type} (t : SettingsState V)
    (a b c : String) (s : Setting V)
    (hd : t.dirtySettings = [([a, b, c], s)]) (hc : c ≠ "") :
    t.get_modified = [(a ++ "." ++ b ++ "." ++ c, ⟨s.get_old, s.get⟩)] ∧
    t.clear_dirty.get_modified = [] := by
  refine ⟨?_, get_modified_clear_dirty t⟩
  rw [get_modified_eq_dirtySettings, hd]
  have hbc : dottedJoin b c = b ++ "." ++ c := by simp [dottedJoin, hc]
  simp only [List.map_cons, List.map_nil, joinPath, List.foldr]
  rw [show dottedJoin c "" = c from by simp [dottedJoin], hbc]
  rw [show dottedJoin a (b ++ "." ++ c) = a ++ "." ++ (b ++ "." ++ c) from by
    simp [dottedJoin, dotted_ne_empty b c]]
  simp [String.append_assoc]

/-- Witness for C5 at the concrete two-level tree `natTreeDeep`. -/
theorem claim_C5_one_dirty_leaf_two_levels_witness :
    natTreeDeep.get_modified
      = [("audio.codec.rate", ⟨natSettingDirty.get_old, natSettingDirty.get⟩)] ∧
    natTreeDeep.clear_dirty.get_modified = [] :=
  claim_C5_one_dirty_leaf_two_levels natTreeDeep "audio" "codec" "rate"
    natSettingDirty rfl (by decide)

/-- The field loop of `__getstate__` yields nothing on a group-free tree
with no explicitly set Setting. -/
theorem getstateItems_eq_nil {V : Type} (t : SettingsState V)
    (h1 : t.noGroups = true) (h2 : t.noneSet = true) :
    t.getstateItems = Snap.nil := by
  induction t with
  | nil => rfl
  | consSetting n s r ih =>
      simp only [SettingsState.noGroups] at h1
      simp only [SettingsState.noneSet, Bool.and_eq_true] at h2
      have hs : s.isset = false := by
        cases hx : s.isset with
        | false => rfl
        | true => rw [hx] at h2; simp at h2
      simp [SettingsState.getstateItems, hs, ih h1 h2.2]
  | consGroup n g r ihg ihr =>
      simp [SettingsState.noGroups] at h1

/-- C9: on a tree with no nested group fields and no explicitly set
Setting, `__getstate__` still produces a non-empty mapping holding only
the reserved `"__dummy__"` marker key, and `__setstate__` ignores that
key, assigning no field on any target instance. -/
theorem claim_C9_empty_marker {V : Type} (t : SettingsState V)
    (h1 : t.noGroups = true) (h2 : t.noneSet = true) :
    t.getstate = Snap.consVal "__dummy__" none Snap.nil ∧
    ∀ u : SettingsState V, u.setstate t.getstate = (none, u) := by
  have hg : t.getstate = Snap.consVal "__dummy__" none Snap.nil := by
    simp [SettingsState.getstate, getstateItems_eq_nil t h1 h2, dummyWrap]
  refine ⟨hg, fun u => ?_⟩
  rw [hg]
  simp [SettingsState.setstate]

/-- Witness for C9 at the concrete clean flat tree. -/
theorem claim_C9_empty_marker_witness :
    natTreeFlatClean.getstate = Snap.consVal "__dummy__" none Snap.nil ∧
    natTreeFlatClean.setstate natTreeFlatClean.getstate = (none, natTreeFlatClean) := by
  have h := claim_C9_empty_marker natTreeFlatClean rfl rfl
  exact ⟨h.1, h.2 natTreeFlatClean⟩

/-- C4: when at least one setting is modified, `save()` never propagates
an error to its caller, posts `CFGSettingsDidChange` carrying the
modified-field mapping, finishes with the recursively dirty-cleared tree
(so nothing is still reported modified), and converts a persistence
failure into an additional `CFGManagerSaveFailed` notification. -/
theorem claim_C4_save_failure_handling {V E : Type} (tree : SettingsState V)
    (sectionName : Option String) (persistOutcome : Option E)
    (h : tree.get_modified ≠ []) :
    (SettingsObject.save tree sectionName persistOutcome).raised = none ∧
    CFGNotification.settingsDidChange (E := E) tree.get_modified
      ∈ (SettingsObject.save tree sectionName persistOutcome).posted ∧
    (SettingsObject.save tree sectionName persistOutcome).tree = tree.clear_dirty ∧
    (SettingsObject.save tree sectionName persistOutcome).tree.get_modified = [] ∧
    (∀ sec e, sectionName = some sec → persistOutcome = some e →
      CFGNotification.managerSaveFailed tree.get_modified e
        ∈ (SettingsObject.save tree sectionName persistOutcome).posted) := by
  have hne : tree.get_modified.isEmpty = false := by
    cases hm : tree.get_modified with
    | nil => exact absurd hm h
    | cons x l => rfl
  cases sectionName with
  | none =>
      refine ⟨?_, ?_, ?_, ?_, ?_⟩ <;>
        simp [SettingsObject.save, hne, get_modified_clear_dirty]
  | some sec =>
      cases persistOutcome with
      | none =>
          refine ⟨?_, ?_, ?_, ?_, ?_⟩ <;>
            simp [SettingsObject.save, hne, get_modified_clear_dirty]
      | some e =>
          refine ⟨?_, ?_, ?_, ?_, ?_⟩ <;>
            simp [SettingsObject.save, hne, get_modified_clear_dirty]

/-- Witness for C4 at a concrete dirty tree with a failing persistence
step (exception token `3`). -/
theorem claim_C4_save_failure_handling_witness :
    (SettingsObject.save (E := Nat) natTreeFlatDirty (some "accounts") (some 3)).raised
      = none ∧
    CFGNotification.settingsDidChange (E := Nat) natTreeFlatDirty.get_modified
      ∈ (SettingsObject.save (E := Nat) natTreeFlatDirty (some "accounts") (some 3)).posted ∧
    CFGNotification.managerSaveFailed natTreeFlatDirty.get_modified 3
      ∈ (SettingsObject.save (E := Nat) natTreeFlatDirty (some "accounts") (some 3)).posted := by
  have h := claim_C4_save_failure_handling (E := Nat) natTreeFlatDirty
    (some "accounts") (some 3) (by decide)
  exact ⟨h.1, h.2.1, h.2.2.2.2 "accounts" 3 rfl rfl⟩

/-- C6 (counterexample): an instance whose id `"general"` is an equal
but distinct string object from the class default id `"general"` (same
`val`, different object identity, e.g. a runtime-built or unicode id).
The identity guard of the source is false, so against the claim the
delete does not fail: it raises nothing, removes the instance from the
identity map and calls the backend, refuting "for every instance whose
id equals the fixed default id, delete() fails with IllegalDeleteError
and changes nothing". -/
theorem claim_C6_counterexample :
    (SettingsObject.delete (PyStr.mk "general" 1) 7 (some (PyStr.mk "general" 0))
        [("general", 7)] (some "accounts") true).raisedIllegal = false ∧
    (SettingsObject.delete (PyStr.mk "general" 1) 7 (some (PyStr.mk "general" 0))
        [("general", 7)] (some "accounts") true).instances = [] ∧
    (SettingsObject.delete (PyStr.mk "general" 1) 7 (some (PyStr.mk "general" 0))
        [("general", 7)] (some "accounts") true).backendOps
      = [BackendOp.deleteEntry "accounts" "general", BackendOp.flush] := by
  decide

/-- C6 (amended): deleting an instance whose id is the very same string
object as the fixed per-type default id (the source guard compares with
`is`, object identity, not value equality) raises the illegal-delete
error and changes nothing: the identity map is untouched and no backend
call is made.  An instance whose id merely has an equal value is not
protected. -/
theorem claim_C6_amended_delete_same_object (selfId : PyStr) (selfRef : Nat)
    (classId : Option PyStr) (instances : List (String × Nat))
    (sectionName : Option String) (sectionExists : Bool)
    (h : selfId.isSameObject classId = true) :
    SettingsObject.delete selfId selfRef classId instances sectionName sectionExists
      = { raisedIllegal := true, instances := instances, backendOps := [] } := by
  simp [SettingsObject.delete, h]

/-- Witness for the amended C6: the singleton whose id is the same
`"alice"` object as the class default id stays registered and triggers
no backend call. -/
theorem claim_C6_amended_delete_same_object_witness :
    SettingsObject.delete (PyStr.mk "alice" 4) 1 (some (PyStr.mk "alice" 4))
        [("alice", 1)] (some "accounts") true
      = { raisedIllegal := true, instances := [("alice", 1)], backendOps := [] } :=
  claim_C6_amended_delete_same_object (PyStr.mk "alice" 4) 1
    (some (PyStr.mk "alice" 4)) [("alice", 1)] (some "accounts") true (by decide)

theorem nameIn_append (n : String) (xs ys : List String) :
    nameIn n (xs ++ ys) = (nameIn n xs || nameIn n ys) := by
  induction xs with
  | nil => simp [nameIn]
  | cons m r ih => simp [nameIn, ih, Bool.or_assoc]

theorem names_append {V : Type} (d u : SettingsState V) :
    (d.append u).names = d.names ++ u.names := by
  induction d with
  | nil => rfl
  | consSetting m s r ih => simp [SettingsState.append, SettingsState.names, ih]
  | consGroup m g r ih2 ih => simp [SettingsState.append, SettingsState.names, ih]

theorem SettingsState.append_assoc {V : Type} (d e u : SettingsState V) :
    (d.append e).append u = d.append (e.append u) := by
  induction d with
  | nil => rfl
  | consSetting m s r ih => simp [SettingsState.append, ih]
  | consGroup m g r ih2 ih => simp [SettingsState.append, ih]

theorem applyValEntry_append {V : Type} (d u : SettingsState V) (n : String)
    (v : Option V) (h : nameIn n d.names = false) :
    (d.append u).applyValEntry n v
      = ((u.applyValEntry n v).1, d.append (u.applyValEntry n v).2) := by
  induction d with
  | nil => rfl
  | consSetting m s r ih =>
      simp only [SettingsState.names, nameIn, Bool.or_eq_false_iff,
        beq_eq_false_iff_ne, ne_eq] at h
      simp [SettingsState.append, SettingsState.applyValEntry, h.1, ih h.2]
  | consGroup m g r ih2 ih =>
      simp only [SettingsState.names, nameIn, Bool.or_eq_false_iff,
        beq_eq_false_iff_ne, ne_eq] at h
      simp [SettingsState.append, SettingsState.applyValEntry, h.1, ih h.2]

theorem lookupGroup_append {V : Type} (d u : SettingsState V) (n : String)
    (h : nameIn n d.names = false) :
    (d.append u).lookupGroup n = u.lookupGroup n := by
  induction d with
  | nil => rfl
  | consSetting m s r ih =>
      simp only [SettingsState.names, nameIn, Bool.or_eq_false_iff,
        beq_eq_false_iff_ne, ne_eq] at h
      simp [SettingsState.append, SettingsState.lookupGroup, h.1, ih h.2]
  | consGroup m g r ih2 ih =>
      simp only [SettingsState.names, nameIn, Bool.or_eq_false_iff,
        beq_eq_false_iff_ne, ne_eq] at h
      simp [SettingsState.append, SettingsState.lookupGroup, h.1, ih h.2]

theorem replaceGroup_append {V : Type} (d u : SettingsState V) (n : String)
    (g2 : SettingsState V) (h : nameIn n d.names = false) :
    (d.append u).replaceGroup n g2 = d.append (u.replaceGroup n g2) := by
  induction d with
  | nil => rfl
  | consSetting m s r ih =>
      simp only [SettingsState.names, nameIn, Bool.or_eq_false_iff,
        beq_eq_false_iff_ne, ne_eq] at h
      simp [SettingsState.append, SettingsState.replaceGroup, ih h.2]
  | consGroup m g r ih2 ih =>
      simp only [SettingsState.names, nameIn, Bool.or_eq_false_iff,
        beq_eq_false_iff_ne, ne_eq] at h
      simp [SettingsState.append, SettingsState.replaceGroup, h.1, ih h.2]

theorem setting_fresh_idem {V : Type} (s : Setting V) : s.fresh.fresh = s.fresh := rfl

theorem state_fresh_idem {V : Type} (t : SettingsState V) :
    t.fresh.fresh = t.fresh := by
  induction t with
  | nil => rfl
  | consSetting n s r ih => simp [SettingsState.fresh, ih, setting_fresh_idem]
  | consGroup n g r ihg ihr => simp [SettingsState.fresh, ihg, ihr]

theorem Setting.restored_eq_fresh {V : Type} (s : Setting V)
    (ho : s.objects = none) : s.restored = s.fresh := by
  simp [Setting.restored, Setting.fresh, ho]

theorem restored_eq_fresh_of_noitems {V : Type} (t : SettingsState V)
    (h : t.getstateItems = Snap.nil) : t.restored = t.fresh := by
  induction t with
  | nil => rfl
  | consSetting n s r ih =>
      by_cases hset : s.isset = true
      · simp [SettingsState.getstateItems, hset] at h
      · have ho : s.objects = none := by
          cases hx : s.objects with
          | none => rfl
          | some v => rw [Setting.isset, hx] at hset; simp at hset
        have hr : r.getstateItems = Snap.nil := by
          simpa [SettingsState.getstateItems, hset] using h
        simp [SettingsState.restored, SettingsState.fresh,
          Setting.restored_eq_fresh s ho, ih hr]
  | consGroup n g r ihg ihr =>
      simp [SettingsState.getstateItems] at h

theorem set_clear_restored {V : Type} (s : Setting V) (v : Option V)
    (ho : s.objects = some v) (hwfs : s.wfState = true) :
    s.fresh.set (toSetVal v) = (none, (s.fresh.set (toSetVal v)).2) ∧
    (s.fresh.set (toSetVal v)).2.clear_dirty = s.restored := by
  cases v with
  | none =>
      have hn : s.nillable = true := by
        simpa [Setting.wfState, ho] using hwfs
      constructor <;>
        simp [toSetVal, Setting.set, Setting.fresh, hn, Setting.clear_dirty,
          Setting.restored, ho]
  | some x =>
      have ht : s.typeCheck x = true := by
        simpa [Setting.wfState, ho] using hwfs
      constructor <;>
        simp [toSetVal, Setting.set, Setting.fresh, ht, Setting.clear_dirty,
          Setting.restored, ho]

theorem part2_of_part1 {V : Type} (t : SettingsState V)
    (h1 : ∀ done : SettingsState V,
        (∀ m, nameIn m done.names = true → nameIn m t.names = false) →
        (done.append t.fresh).setstate t.getstateItems
          = (none, done.append t.restored)) :
    t.fresh.setstate t.getstate = (none, t.restored) := by
  have h0 := h1 SettingsState.nil
    (fun m hm => by simp [SettingsState.names, nameIn] at hm)
  have hnil : ∀ u : SettingsState V, SettingsState.nil.append u = u := fun u => rfl
  simp only [hnil] at h0
  unfold SettingsState.getstate
  cases hgi : t.getstateItems with
  | nil =>
      rw [restored_eq_fresh_of_noitems t hgi]
      simp [dummyWrap, SettingsState.setstate]
  | consVal a v rest =>
      rw [hgi] at h0
      simpa [dummyWrap] using h0
  | consGroup a sub rest =>
      rw [hgi] at h0
      simpa [dummyWrap] using h0

theorem setstate_roundtrip_main {V : Type} (t : SettingsState V) :
    t.wf = true →
    (∀ done : SettingsState V,
        (∀ m, nameIn m done.names = true → nameIn m t.names = false) →
        (done.append t.fresh).setstate t.getstateItems
          = (none, done.append t.restored)) ∧
    t.fresh.setstate t.getstate = (none, t.restored) := by
  induction t with
  | nil =>
      intro hw
      have p1 : ∀ done : SettingsState V,
          (∀ m, nameIn m done.names = true →
            nameIn m (SettingsState.nil (V := V)).names = false) →
          (done.append (SettingsState.nil (V := V)).fresh).setstate
              (SettingsState.nil (V := V)).getstateItems
            = (none, done.append (SettingsState.nil (V := V)).restored) :=
        fun done hd => rfl
      exact ⟨p1, part2_of_part1 _ p1⟩
  | consSetting n s r ihr =>
      intro hw
      simp only [SettingsState.wf, Bool.and_eq_true] at hw
      obtain ⟨⟨⟨hdum, hwfs⟩, hnr0⟩, hwr⟩ := hw
      have hdum2 : ¬ (n = "__dummy__") := by simpa using hdum
      have hnr : nameIn n r.names = false := by simpa using hnr0
      have ihp := ihr hwr
      have p1 : ∀ done : SettingsState V,
          (∀ m, nameIn m done.names = true →
            nameIn m (SettingsState.consSetting n s r).names = false) →
          (done.append (SettingsState.consSetting n s r).fresh).setstate
              (SettingsState.consSetting n s r).getstateItems
            = (none, done.append (SettingsState.consSetting n s r).restored) := by
        intro done hdisj
        have hdn : nameIn n done.names = false := by
          cases hx : nameIn n done.names with
          | false => rfl
          | true =>
              have h2 := hdisj n hx
              simp [SettingsState.names, nameIn] at h2
        have hdisjR : ∀ m, nameIn m done.names = true → nameIn m r.names = false := by
          intro m hm
          have h2 := hdisj m hm
          simp only [SettingsState.names, nameIn, Bool.or_eq_false_iff] at h2
          exact h2.2
        simp only [SettingsState.fresh, SettingsState.restored]
        cases ho : s.objects with
        | some v =>
            have hset : s.isset = true := by simp [Setting.isset, ho]
            have hget : s.get = v := by simp [Setting.get, ho]
            have hsc := set_clear_restored s v ho hwfs
            have hitems : (SettingsState.consSetting n s r).getstateItems
                = Snap.consVal n v r.getstateItems := by
              simp [SettingsState.getstateItems, hset, hget]
            rw [hitems]
            simp only [SettingsState.setstate]
            rw [if_neg hdum2]
            rw [applyValEntry_append done _ n v hdn]
            have happ : (SettingsState.consSetting n s.fresh r.fresh).applyValEntry n v
                = (none, SettingsState.consSetting n s.restored r.fresh) := by
              simp only [SettingsState.applyValEntry, if_pos rfl]
              rw [hsc.1]
              simp only []
              rw [hsc.2]
              exact if_pos trivial
            rw [happ]
            simp only []
            have hstep : done.append (SettingsState.consSetting n s.restored r.fresh)
                = (done.append
                    (SettingsState.consSetting n s.restored SettingsState.nil)).append
                    r.fresh := by
              rw [SettingsState.append_assoc]
              rfl
            have hdisj2 : ∀ m,
                nameIn m (done.append
                  (SettingsState.consSetting n s.restored SettingsState.nil)).names = true →
                nameIn m r.names = false := by
              intro m hm
              rw [names_append, nameIn_append] at hm
              cases hx : nameIn m done.names with
              | true => exact hdisjR m hx
              | false =>
                  rw [hx] at hm
                  simp only [Bool.false_or, SettingsState.names, nameIn,
                    Bool.or_false] at hm
                  have hnm : n = m := by simpa using hm
                  rw [← hnm]
                  exact hnr
            rw [hstep, ihp.1 _ hdisj2, SettingsState.append_assoc]
            rfl
        | none =>
            have hset : s.isset = false := by simp [Setting.isset, ho]
            have hitems : (SettingsState.consSetting n s r).getstateItems
                = r.getstateItems := by
              simp [SettingsState.getstateItems, hset]
            rw [hitems]
            rw [Setting.restored_eq_fresh s ho]
            have hstep : done.append (SettingsState.consSetting n s.fresh r.fresh)
                = (done.append
                    (SettingsState.consSetting n s.fresh SettingsState.nil)).append
                    r.fresh := by
              rw [SettingsState.append_assoc]
              rfl
            have hdisj2 : ∀ m,
                nameIn m (done.append
                  (SettingsState.consSetting n s.fresh SettingsState.nil)).names = true →
                nameIn m r.names = false := by
              intro m hm
              rw [names_append, nameIn_append] at hm
              cases hx : nameIn m done.names with
              | true => exact hdisjR m hx
              | false =>
                  rw [hx] at hm
                  simp only [Bool.false_or, SettingsState.names, nameIn,
                    Bool.or_false] at hm
                  have hnm : n = m := by simpa using hm
                  rw [← hnm]
                  exact hnr
            rw [hstep, ihp.1 _ hdisj2, SettingsState.append_assoc]
            rfl
      exact ⟨p1, part2_of_part1 _ p1⟩
  | consGroup n g r ihg ihr =>
      intro hw
      simp only [SettingsState.wf, Bool.and_eq_true] at hw
      obtain ⟨⟨⟨hdum, hnr0⟩, hwg⟩, hwr⟩ := hw
      have hdum2 : ¬ (n = "__dummy__") := by simpa using hdum
      have hnr : nameIn n r.names = false := by simpa using hnr0
      have ihp := ihr hwr
      have hchild : SettingsState.setstate g.fresh (dummyWrap g.getstateItems)
          = (none, g.restored) := (ihg hwg).2
      have p1 : ∀ done : SettingsState V,
          (∀ m, nameIn m done.names = true →
            nameIn m (SettingsState.consGroup n g r).names = false) →
          (done.append (SettingsState.consGroup n g r).fresh).setstate
              (SettingsState.consGroup n g r).getstateItems
            = (none, done.append (SettingsState.consGroup n g r).restored) := by
        intro done hdisj
        have hdn : nameIn n done.names = false := by
          cases hx : nameIn n done.names with
          | false => rfl
          | true =>
              have h2 := hdisj n hx
              simp [SettingsState.names, nameIn] at h2
        have hdisjR : ∀ m, nameIn m done.names = true → nameIn m r.names = false := by
          intro m hm
          have h2 := hdisj m hm
          simp only [SettingsState.names, nameIn, Bool.or_eq_false_iff] at h2
          exact h2.2
        simp only [SettingsState.fresh, SettingsState.restored,
          SettingsState.getstateItems]
        simp only [SettingsState.setstate]
        rw [if_neg hdum2]
        rw [lookupGroup_append done _ n hdn]
        have hlook : (SettingsState.consGroup n g.fresh r.fresh).lookupGroup n
            = some (some g.fresh) := by
          simp [SettingsState.lookupGroup]
        rw [hlook]
        simp only []
        rw [state_fresh_idem g, hchild]
        simp only []
        rw [replaceGroup_append done _ n g.restored hdn]
        have hrepl : (SettingsState.consGroup n g.fresh r.fresh).replaceGroup n g.restored
            = SettingsState.consGroup n g.restored r.fresh := by
          simp [SettingsState.replaceGroup]
        rw [hrepl]
        have hstep : done.append (SettingsState.consGroup n g.restored r.fresh)
            = (done.append
                (SettingsState.consGroup n g.restored SettingsState.nil)).append
                r.fresh := by
          rw [SettingsState.append_assoc]
          rfl
        have hdisj2 : ∀ m,
            nameIn m (done.append
              (SettingsState.consGroup n g.restored SettingsState.nil)).names = true →
            nameIn m r.names = false := by
          intro m hm
          rw [names_append, nameIn_append] at hm
          cases hx : nameIn m done.names with
          | true => exact hdisjR m hx
          | false =>
              rw [hx] at hm
              simp only [Bool.false_or, SettingsState.names, nameIn,
                Bool.or_false] at hm
              have hnm : n = m := by simpa using hm
              rw [← hnm]
              exact hnr
        rw [hstep, ihp.1 _ hdisj2, SettingsState.append_assoc]
        rfl
      exact ⟨p1, part2_of_part1 _ p1⟩

theorem settingView_restored {V : Type} (t : SettingsState V) :
    t.restored.settingView = t.settingView := by
  induction t with
  | nil => rfl
  | consSetting n s r ih =>
      simp [SettingsState.restored, SettingsState.settingView, ih,
        Setting.restored, Setting.isset, Setting.get]
  | consGroup n g r ihg ihr =>
      simp [SettingsState.restored, SettingsState.settingView, ihg, ihr]

theorem get_modified_restored {V : Type} (t : SettingsState V) :
    t.restored.get_modified = [] := by
  induction t with
  | nil => rfl
  | consSetting n s r ih =>
      simp [SettingsState.restored, SettingsState.get_modified, ih,
        Setting.restored, Setting.isdirty]
  | consGroup n g r ihg ihr =>
      simp [SettingsState.restored, SettingsState.get_modified, ihg, ihr]

/-- C3: restoring the snapshot of any well-formed tree into a fresh
all-default tree of the same schema raises nothing, yields a tree whose
`isSet` and `get` results match the source on every Setting field
(recursively through nested groups), and leaves the restored tree with
no pending changes: `collectModified` on it is empty. -/
theorem claim_C3_snapshot_restore_roundtrip {V : Type} (t : SettingsState V)
    (hw : t.wf = true) :
    (t.fresh.setstate t.getstate).1 = none ∧
    (t.fresh.setstate t.getstate).2.settingView = t.settingView ∧
    (t.fresh.setstate t.getstate).2.get_modified = [] := by
  rw [(setstate_roundtrip_main t hw).2]
  exact ⟨rfl, settingView_restored t, get_modified_restored t⟩

/-- Witness for C3 at the concrete mixed tree `natTreeSample`. -/
theorem claim_C3_snapshot_restore_roundtrip_witness :
    natTreeSample.wf = true ∧
    ((natTreeSample.fresh.setstate natTreeSample.getstate).1 = none ∧
     (natTreeSample.fresh.setstate natTreeSample.getstate).2.settingView
       = natTreeSample.settingView ∧
     (natTreeSample.fresh.setstate natTreeSample.getstate).2.get_modified = []) :=
  ⟨by decide, claim_C3_snapshot_restore_roundtrip natTreeSample (by decide)⟩
